import Mathlib

/-!
# Verification of the json-ws JavaScript proxy generator

Shallow embedding of the json-ws client-proxy compiler and of the runtime
behaviour of the proxies it generates.

The embedded code comes from two source files:

* the EJS template that emits the JavaScript client proxy
  (`src/unnamed/part_000`): the generated constructor, `rebind`, the
  transport switchers `useHTTP`/`useWS`, the event-subscription methods
  (`on`/`addListener`, `removeListener`, `removeAllListeners`), the
  per-enum accessor emitted by `generateTypes`, the namespace stubbing
  (`stubNamespace` and the namespace collection loop) and the per-method
  stub template;
* the compiler entry point `getLanguageProxy`
  (`src/lib/get-language-proxy.js`).

Modelling conventions:

* Dotted identifiers (`"a.b.c"`) are represented as their non-empty list of
  dot segments (`["a", "b", "c"]`); `lastIndexOf('.') != -1` becomes
  "length ≥ 2" and `name.substr(0, dot)` becomes `List.dropLast`.
* JavaScript values appearing as method-call arguments are `JsArg`; the
  only observation the template makes on them is `typeof x === 'function'`.
* The tunnel collaborator (`this.rpc`) is abstracted as the list of calls
  handed to `rpc.call`, recorded in `ProxyState.calls` in order.
* The file system behind `fs.stat` in `getLanguageProxy` is abstracted as
  the association list of registered emitter templates.
-/

/-- The two transports the generated proxy can select
(`this.defaultTransport` is the string `'http'` or `'ws'`). -/
inductive Transport where
  | http
  | ws
deriving DecidableEq, Repr

/-- A JavaScript value passed as a positional argument to a generated
method stub.  The template only distinguishes functions
(`typeof args[args.length - 1] === 'function'`) from everything else;
`str` additionally covers the event-name strings of the control calls. -/
inductive JsArg where
  | str (s : String)
  | func (id : Nat)
  | val (id : Nat)
deriving DecidableEq, Repr

/-- `typeof x === 'function'` on a `JsArg`. -/
def JsArg.isFunction : JsArg → Bool
  | .func _ => true
  | _ => false

/-- One invocation of `this.rpc.call({method, params, expectReturn,
transport})`: the argument object handed to the tunnel. `expectReturn`
is absent (hence falsy) on the `rpc.on`/`rpc.off` control calls. -/
structure RpcCall where
  method : String
  params : List JsArg
  expectReturn : Bool
  transport : Transport
deriving DecidableEq, Repr

/-- The observable state of a generated proxy instance: the currently
selected default transport, the per-event listener counts of the
underlying `EventEmitter`, and the calls issued to the tunnel so far. -/
structure ProxyState where
  defaultTransport : Transport
  listeners : List (String × Nat)
  calls : List RpcCall
deriving DecidableEq, Repr

/-! ## Enum accessors (template `generateTypes`, part_000 lines 82–98)

For each enum type the template emits

```
Name.Type = function (val) {
  switch (val) {
    case "label₀": return value₀; …
    case value₀: return "label₀"; …
  }
};
Name.Type.label₀ = value₀; …
Object.freeze(Name.Type);
```
-/

/-- A value flowing through the emitted enum accessor: either a label
string or a member integer. -/
inductive EnumVal where
  | str (s : String)
  | int (n : Int)
deriving DecidableEq, Repr

/-- An enum type from the metadata snapshot: `type.name` and
`type.struct`, the label → integer member map in key order. -/
structure EnumDef where
  name : String
  struct : List (String × Int)
deriving DecidableEq, Repr

/-- The ordered case list of the emitted `switch`: first one
`case "label": return value` per member, then one
`case value: return "label"` per member. -/
def enumCases (pairs : List (String × Int)) : List (EnumVal × EnumVal) :=
  pairs.map (fun lv => (EnumVal.str lv.1, EnumVal.int lv.2)) ++
    pairs.map (fun lv => (EnumVal.int lv.2, EnumVal.str lv.1))

/-- A JavaScript `switch` over a case list: the first case strictly equal
to the scrutinee returns; falling off the end returns `undefined`
(`none`). -/
def switchLookup : List (EnumVal × EnumVal) → EnumVal → Option EnumVal
  | [], _ => none
  | c :: cs, v => if c.1 = v then some c.2 else switchLookup cs v

/-- The emitted accessor for one enum type: the callable `switch` body,
the numeric label properties assigned onto the accessor object, and
whether `Object.freeze` was applied to it. -/
structure EnumAccessor where
  call : EnumVal → Option EnumVal
  props : List (String × Int)
  frozen : Bool

/-- `generateTypes`, per enum type: emit the two-way `switch` function,
assign `Name.Type.label = value` for every member, freeze the result. -/
def generateEnumAccessor (e : EnumDef) : EnumAccessor :=
  { call := switchLookup (enumCases e.struct)
    props := e.struct
    frozen := true }

/-! ## Method stubs (part_000 lines 127–141)

```
Name.prototype.m = function(…) {
  var args = Array.prototype.slice.call(arguments);
  var callback = null;
  if (args.length && typeof args[args.length - 1] === 'function') {
    callback = args.pop();
  }
  args.length = Math.min(P, args.length);   // or args.length = 0 if P = 0
  return this.rpc.call({ method: 'm', params: args,
    expectReturn: R, transport: this.defaultTransport }, callback);
};
```
-/

/-- The callback-extraction step: if the argument list is non-empty and
its last element is a function, `pop` it off and keep it as the
completion callback. -/
def extractCallback (args : List JsArg) : List JsArg × Option JsArg :=
  match args.getLast? with
  | some a => if a.isFunction then (args.dropLast, some a) else (args, none)
  | none => (args, none)

/-- The truncation step: `args.length = Math.min(paramCount, args.length)`
when the method declares parameters, `args.length = 0` otherwise. -/
def truncateArgs (paramCount : Nat) (args : List JsArg) : List JsArg :=
  if paramCount > 0 then args.take (min paramCount args.length) else []

/-- One declared method from the metadata snapshot: its (split) name, its
declared parameter count, and the `returns`/`async` flags that decide
`expectReturn` (`!!returns || !!async`). -/
structure MethodDef where
  name : List String
  paramCount : Nat
  returns : Bool
  async : Bool
deriving DecidableEq, Repr

/-- The body of a generated method stub: extract a trailing callable as
the callback, truncate the remaining positional arguments, and hand
`{method, params, expectReturn, transport: this.defaultTransport}` plus
the callback to the tunnel.  Returns the updated proxy state together
with the call object recorded and the extracted callback. -/
def methodStubCall (m : MethodDef) (p : ProxyState) (args : List JsArg) :
    ProxyState × RpcCall × Option JsArg :=
  let ec := extractCallback args
  let call : RpcCall :=
    { method := String.intercalate "." m.name
      params := truncateArgs m.paramCount ec.1
      expectReturn := m.returns || m.async
      transport := p.defaultTransport }
  ({ p with calls := p.calls ++ [call] }, call, ec.2)

/-! ## Namespace stubs (part_000 lines 104–123)

```
var stubs = {};
function stubNamespace(ns) {
  var dot = ns.lastIndexOf('.');
  if (dot != -1) stubNamespace(ns.substr(0, dot));
  if (stubs[ns]) return;
  stubs[ns] = 1;
  emit "Name.prototype.<ns> = {_ns:true};"
}
var namespaces = [];
Object.keys(metadata.methods).forEach(function(methodName) {
  var dot = methodName.lastIndexOf('.');
  if (dot == -1) return;
  var namespace = methodName.substr(0, dot);
  if (namespaces.indexOf(namespace) == -1) namespaces.push(namespace);
});
namespaces.forEach(stubNamespace);
```

A dotted name is its list of segments; a namespace path is a non-empty
such list.  The accumulator is the emission-ordered list of paths already
stubbed (`stubs` plus the output stream at once, both grow together).
-/

/-- A dot-separated namespace path, as its list of segments. -/
abbrev NsPath := List String

/-- `stubNamespace`: recursively stub the parent (when the path still
contains a dot, i.e. has at least two segments), then emit this path's
container unless it was already stubbed.  The accumulator is the list of
paths emitted so far, in emission order. -/
def stubNamespace (ns : NsPath) (acc : List NsPath) : List NsPath :=
  let acc' := if _h : 2 ≤ ns.length then stubNamespace ns.dropLast acc else acc
  if ns ∈ acc' then acc' else acc' ++ [ns]
termination_by ns.length
decreasing_by simp [List.length_dropLast]; omega

/-- The namespace-collection loop: for each method name that contains a
dot, push its direct namespace (everything before the last dot) unless
already collected. -/
def collectNamespaces (methodNames : List NsPath) : List NsPath :=
  methodNames.foldl
    (fun acc name =>
      if name.length ≤ 1 then acc
      else if name.dropLast ∈ acc then acc else acc ++ [name.dropLast])
    []

/-- `namespaces.forEach(stubNamespace)`: the full emission-ordered list of
namespace container stubs for the given method names. -/
def generateStubs (methodNames : List NsPath) : List NsPath :=
  (collectNamespaces methodNames).foldl (fun acc ns => stubNamespace ns acc) []

/-- The metadata snapshot, restricted to the pieces the template reads:
the enum types (`metadata.types`, keeping only `type.enum` entries), the
methods (`metadata.methods`, in key order) and the event names
(`metadata.events`).  Names are kept in split-at-dot form. -/
structure Metadata where
  enums : List EnumDef
  methods : List MethodDef
  events : List (List String)
deriving Repr

/-- The namespace containers the template emits for a snapshot: the
collection loop ranges over `Object.keys(metadata.methods)` only. -/
def emittedStubs (md : Metadata) : List NsPath :=
  generateStubs (md.methods.map MethodDef.name)

/-! ## Receiver rebinding (part_000 lines 27–43)

```
function rebind(obj) {
  var result = {};
  for (var i in obj) {
    var prop = obj[i];
    if (typeof prop === 'function') {
      result[i] = prop.bind(self);
    } else if (typeof prop === 'object') {
      result[i] = rebind(prop);
    }
  }
  return result;
}
for (var i in this) {
  if (this[i] && this[i]._ns) {
    this[i] = rebind(this[i]);
  }
}
```

A prototype property tree: functions carry the receiver they are bound
to (`none` = unbound, uses the call-time `this`); objects carry their
property list plus the truthiness of their `_ns` marker; everything else
is `prim`.  `rebind` builds a fresh object keeping only function and
object properties, binding the former and recursing into the latter.
-/

/-- A value in the generated proxy's prototype property tree. -/
inductive ProtoVal where
  | fn (boundTo : Option Nat)
  | obj (isNs : Bool) (props : List (String × ProtoVal))
  | prim
deriving Repr

/-- `Function.prototype.bind`: binding an already-bound function does not
change its receiver; binding an unbound one fixes the receiver. -/
def jsBind (self : Nat) : Option Nat → Option Nat
  | none => some self
  | some r => some r

/-- The receiver a function executes with when invoked: its bound
receiver if any, otherwise the call-time `this` (which is absent for a
detached call). -/
def effectiveReceiver (boundTo : Option Nat) (callTimeThis : Option Nat) :
    Option Nat :=
  match boundTo with
  | some r => some r
  | none => callTimeThis

/-- `rebind` on a property list: bind function properties to `self`,
recurse into object properties (the fresh result object carries no `_ns`
marker, which was a boolean property), and drop all other properties. -/
def rebindProps (self : Nat) : List (String × ProtoVal) → List (String × ProtoVal)
  | [] => []
  | (n, ProtoVal.fn b) :: rest => (n, ProtoVal.fn (jsBind self b)) :: rebindProps self rest
  | (n, ProtoVal.obj _ ps) :: rest =>
      (n, ProtoVal.obj false (rebindProps self ps)) :: rebindProps self rest
  | (_, ProtoVal.prim) :: rest => rebindProps self rest

/-- The receivers of every function reachable in a property list,
recursing through nested objects. -/
def propsReceivers : List (String × ProtoVal) → List (Option Nat)
  | [] => []
  | (_, ProtoVal.fn b) :: rest => b :: propsReceivers rest
  | (_, ProtoVal.obj _ ps) :: rest => propsReceivers ps ++ propsReceivers rest
  | (_, ProtoVal.prim) :: rest => propsReceivers rest

/-- The constructor's rebinding loop over the instance's enumerable
properties: every property that is truthy and has a truthy `_ns` marker
(exactly the namespace containers, stubbed as `{_ns:true}`) is replaced
by `rebind` of itself; everything else is left alone. -/
def constructNamespaces (self : Nat) (props : List (String × ProtoVal)) :
    List (String × ProtoVal) :=
  props.map (fun nv =>
    match nv with
    | (n, ProtoVal.obj true ps) => (n, ProtoVal.obj false (rebindProps self ps))
    | other => other)

/-! ## Event subscription (part_000 lines 61–78)

```
Name.prototype.on = Name.prototype.addListener = function(type, listener) {
  if (this.listeners(type).length == 0) {
    this.rpc.call({ method: 'rpc.on', params: [type], transport: 'ws' });
  }
  EventEmitter.prototype.addListener.call(this, type, listener);
};
Name.prototype.removeAllListeners = function(type) {
  EventEmitter.prototype.removeAllListeners.call(this, type);
  this.rpc.call({ method: 'rpc.off', params: [type], transport: 'ws' });
};
```
-/

/-- First-match lookup in the per-event listener-count bookkeeping. -/
def countLookup : List (String × Nat) → String → Nat
  | [], _ => 0
  | (k, n) :: rest, t => if k = t then n else countLookup rest t

/-- `this.listeners(type).length`: the number of listeners currently
registered for an event name (missing entry = zero). -/
def listenerCount (p : ProxyState) (type : String) : Nat :=
  countLookup p.listeners type

/-- Set the listener count for an event name in the bookkeeping list. -/
def setListenerCount (p : ProxyState) (type : String) (n : Nat) : ProxyState :=
  { p with listeners := (type, n) :: p.listeners.filter (fun e => e.1 ≠ type) }

/-- The subscribe control call: `{method: 'rpc.on', params: [type],
transport: 'ws'}` (no `expectReturn` field, hence falsy). -/
def rpcOnCall (type : String) : RpcCall :=
  { method := "rpc.on", params := [JsArg.str type], expectReturn := false
    transport := Transport.ws }

/-- The unsubscribe control call: `{method: 'rpc.off', params: [type],
transport: 'ws'}`. -/
def rpcOffCall (type : String) : RpcCall :=
  { method := "rpc.off", params := [JsArg.str type], expectReturn := false
    transport := Transport.ws }

/-- `on`/`addListener`: issue the `rpc.on` control call exactly when no
listener is yet registered for the event name, then register the new
listener with the underlying `EventEmitter`. -/
def addListener (p : ProxyState) (type : String) : ProxyState :=
  let p' :=
    if listenerCount p type = 0 then
      { p with calls := p.calls ++ [rpcOnCall type] }
    else p
  setListenerCount p' type (listenerCount p type + 1)

/-- `removeAllListeners`: drop every listener for the event name with the
underlying `EventEmitter`, then unconditionally issue the `rpc.off`
control call. -/
def removeAllListeners (p : ProxyState) (type : String) : ProxyState :=
  let p' := setListenerCount p type 0
  { p' with calls := p'.calls ++ [rpcOffCall type] }

/-! ## Transport switchers (part_000 lines 47–55) and prototype surface

```
Name.prototype.useHTTP = function() { this.defaultTransport = 'http'; return this; };
Name.prototype.useWS = function() { this.defaultTransport = 'ws'; return this; };
```
-/

/-- What a prototype method returns: `.self` stands for `return this`. -/
inductive MethodReturn where
  | self
deriving DecidableEq, Repr

/-- `useHTTP`: select the request/response transport and return `this`. -/
def useHTTP (p : ProxyState) : ProxyState × MethodReturn :=
  ({ p with defaultTransport := Transport.http }, MethodReturn.self)

/-- `useWS`: select the persistent WebSocket transport and return
`this`. -/
def useWS (p : ProxyState) : ProxyState × MethodReturn :=
  ({ p with defaultTransport := Transport.ws }, MethodReturn.self)

/-- The names of the methods the template installs on the generated
prototype, in source order (part_000 lines 47–78; `on` and `addListener`
are two names for the same function). -/
def proxyPrototypeMethodNames : List String :=
  ["useHTTP", "useWS", "close", "on", "addListener", "removeListener",
   "removeAllListeners"]

/-! ## Constructor (part_000 lines 14–23)

```
var Name = exports.Name = function Name(url, sslSettings) {
  if (!this instanceof Name) {
    return new Name(url);
  }
  if (!url || typeof url !== 'string') {
    throw new Error('Invalid proxy URL');
  }
  var self = this;
  this.defaultTransport = 'http';
  this.rpc = new RpcTunnel(url, sslSettings);
  …
};
```
-/

/-- A JavaScript value as scrutinised by the constructor: the `url`
argument and the `this` binding range over these. -/
inductive JsValue where
  | str (s : String)
  | num (n : Int)
  | boolean (b : Bool)
  | undef
  | nullV
  | objV (isProxyInstance : Bool)
deriving DecidableEq, Repr

/-- JavaScript truthiness of a `JsValue` (`NaN` is subsumed by modelling
numbers as integers; every object is truthy). -/
def jsTruthy : JsValue → Bool
  | .str s => s ≠ ""
  | .num n => n ≠ 0
  | .boolean b => b
  | .undef => false
  | .nullV => false
  | .objV _ => true

/-- The JavaScript `!` operator: always produces a boolean. -/
def jsNot (v : JsValue) : JsValue :=
  JsValue.boolean (!jsTruthy v)

/-- `typeof v === 'string'`. -/
def jsIsString : JsValue → Bool
  | .str _ => true
  | _ => false

/-- `v instanceof Name`: only an object can be an instance of the
generated constructor; primitives (booleans in particular) never are. -/
def jsInstanceOfProxy : JsValue → Bool
  | .objV b => b
  | _ => false

/-- The constructor's first guard as written: `!this instanceof Name`.
`!` binds tighter than `instanceof`, so the negation applies to `this`
first and the boolean result is then tested for being an instance. -/
def ctorGuard (thisV : JsValue) : Bool :=
  jsInstanceOfProxy (jsNot thisV)

/-- The three ways a constructor invocation can end. -/
inductive CtorResult where
  | freshInstance
  | threwInvalidUrl
  | constructed (p : ProxyState)
deriving DecidableEq, Repr

/-- The generated constructor: the (ineffective) missing-`new` guard,
then the URL validation `if (!url || typeof url !== 'string') throw`,
then initialisation with `defaultTransport = 'http'` and a fresh tunnel
(no calls issued yet; the namespace rebinding walk is modelled separately
by `constructNamespaces`). -/
def proxyCtor (thisV : JsValue) (url : JsValue) : CtorResult :=
  if ctorGuard thisV then CtorResult.freshInstance
  else if !jsTruthy url || !jsIsString url then CtorResult.threwInvalidUrl
  else
    CtorResult.constructed
      { defaultTransport := Transport.http, listeners := [], calls := [] }

/-! ## Compiler entry point (`src/lib/get-language-proxy.js`)

```
function getLanguageProxy(options) {
  var proxyScript = path.resolve(__dirname, '..', 'proxies', options.language + '.ejs');
  return new Promise(function(resolve, reject) {
    fs.stat(proxyScript, function(err) {
      if (err) { return reject(err); }
      ejs.renderFile(proxyScript, {
        metadata: options.serviceInstance.getMetadata(),
        localName: options.localName || 'Proxy'
      }, function(err, html) {
        if (err) { return reject(err); }
        resolve(html);
      });
    });
  });
}
```

The file system of `proxies/*.ejs` emitter templates is abstracted as an
association list from language name to template; a template is a
rendering function from (metadata, localName) to source text, which may
itself fail (`ejs.renderFile` error).  `fs.stat` failing because no
emitter file exists for the language is the unsupported-language
rejection; no output text accompanies a rejection.
-/

/-- How a `getLanguageProxy` promise can reject. -/
inductive GenError where
  | unsupportedLanguage
  | renderError
deriving DecidableEq, Repr

/-- A registered emitter template: renders a metadata snapshot and a
local proxy-class name to source text, or fails. -/
structure Emitter where
  render : Metadata → String → Except GenError String

/-- The options object of the entry point: the service's metadata
snapshot, the requested target language and the optional proxy-class
name. -/
structure ProxyOptions where
  metadata : Metadata
  language : String
  localName : Option String

/-- `getLanguageProxy`: look up the emitter template for the requested
language (`fs.stat` on `proxies/<language>.ejs`), rejecting with the
unsupported-language error when none exists, and otherwise render it
with the metadata and `options.localName || 'Proxy'`. -/
def getLanguageProxy (emitters : List (String × Emitter))
    (options : ProxyOptions) : Except GenError String :=
  match emitters.lookup options.language with
  | none => Except.error GenError.unsupportedLanguage
  | some em =>
      em.render options.metadata
        (match options.localName with
         | some n => if n ≠ "" then n else "Proxy"
         | none => "Proxy")

/-- Reading a numeric property off the accessor object: the assignments
`Name.Type.label = value` are made once per member, with member labels
unique, so first-match lookup over the assignment list is the JavaScript
property read. -/
def propLookup : List (String × Int) → String → Option Int
  | [], _ => none
  | (k, w) :: rest, l => if k = l then some w else propLookup rest l

/-! ## Helper lemmas -/

/-- In the label-keyed half of the `switch`, a registered label hits its
own case first when labels are distinct. -/
lemma switchLookup_strCases (pairs : List (String × Int)) (l : String) (v : Int)
    (hnd : (pairs.map Prod.fst).Nodup) (hmem : (l, v) ∈ pairs) :
    switchLookup (pairs.map (fun lv => (EnumVal.str lv.1, EnumVal.int lv.2)))
      (EnumVal.str l) = some (EnumVal.int v) := by
  induction pairs with
  | nil => cases hmem
  | cons hd tl ih =>
      obtain ⟨k, w⟩ := hd
      simp only [List.map_cons, List.nodup_cons, List.mem_map] at hnd
      rcases List.mem_cons.mp hmem with hhd | htl
      · rw [Prod.mk.injEq] at hhd
        simp [switchLookup, hhd.1, hhd.2]
      · have hne : k ≠ l := by
          intro he
          exact hnd.1 ⟨(l, v), htl, by simp [he]⟩
        simp only [switchLookup, List.map_cons]
        rw [if_neg (by simp [hne])]
        exact ih hnd.2 htl

/-- An integer scrutinee matches no case of the label-keyed half. -/
lemma switchLookup_strCases_int (pairs : List (String × Int)) (n : Int) :
    switchLookup (pairs.map (fun lv => (EnumVal.str lv.1, EnumVal.int lv.2)))
      (EnumVal.int n) = none := by
  induction pairs with
  | nil => rfl
  | cons hd tl ih => simpa [switchLookup] using ih

/-- In the value-keyed half of the `switch`, a registered value hits its
own case first when values are distinct. -/
lemma switchLookup_intCases (pairs : List (String × Int)) (l : String) (v : Int)
    (hnd : (pairs.map Prod.snd).Nodup) (hmem : (l, v) ∈ pairs) :
    switchLookup (pairs.map (fun lv => (EnumVal.int lv.2, EnumVal.str lv.1)))
      (EnumVal.int v) = some (EnumVal.str l) := by
  induction pairs with
  | nil => cases hmem
  | cons hd tl ih =>
      obtain ⟨k, w⟩ := hd
      simp only [List.map_cons, List.nodup_cons, List.mem_map] at hnd
      rcases List.mem_cons.mp hmem with hhd | htl
      · rw [Prod.mk.injEq] at hhd
        simp [switchLookup, hhd.1, hhd.2]
      · have hne : w ≠ v := by
          intro he
          exact hnd.1 ⟨(l, v), htl, by simp [he]⟩
        simp only [switchLookup, List.map_cons]
        rw [if_neg (by simp [hne])]
        exact ih hnd.2 htl

/-- `switchLookup` over concatenated case lists tries the first list
first. -/
lemma switchLookup_append (a b : List (EnumVal × EnumVal)) (v : EnumVal) :
    switchLookup (a ++ b) v =
      match switchLookup a v with
      | some r => some r
      | none => switchLookup b v := by
  induction a with
  | nil => rfl
  | cons hd tl ih =>
      by_cases h : hd.1 = v
      · simp [switchLookup, h]
      · simp [switchLookup, h, ih]

/-- A registered label's numeric property assignment resolves to its
value when labels are distinct. -/
lemma propLookup_of_mem_nodup (pairs : List (String × Int)) (l : String) (v : Int)
    (hnd : (pairs.map Prod.fst).Nodup) (hmem : (l, v) ∈ pairs) :
    propLookup pairs l = some v := by
  induction pairs with
  | nil => cases hmem
  | cons hd tl ih =>
      obtain ⟨k, w⟩ := hd
      simp only [List.map_cons, List.nodup_cons, List.mem_map] at hnd
      rcases List.mem_cons.mp hmem with hhd | htl
      · rw [Prod.mk.injEq] at hhd
        simp [propLookup, hhd.1, hhd.2]
      · have hne : k ≠ l := by
          intro he
          exact hnd.1 ⟨(l, v), htl, by simp [he]⟩
        simpa [propLookup, hne] using ih hnd.2 htl

/-- C1.  For every enum type whose member labels are distinct and whose
member values are distinct (the metadata invariants on a registered
enum), the emitted accessor is callable both ways — it maps each
registered label to its integer value and each integer value back to its
label — and it carries each label as a numeric property equal to its
value, and `Object.freeze` has been applied to it after construction. -/
theorem enum_accessor_roundtrip (e : EnumDef)
    (hl : (e.struct.map Prod.fst).Nodup) (hv : (e.struct.map Prod.snd).Nodup)
    (l : String) (v : Int) (hmem : (l, v) ∈ e.struct) :
    (generateEnumAccessor e).call (EnumVal.str l) = some (EnumVal.int v) ∧
    (generateEnumAccessor e).call (EnumVal.int v) = some (EnumVal.str l) ∧
    propLookup (generateEnumAccessor e).props l = some v ∧
    (generateEnumAccessor e).frozen = true := by
  refine ⟨?_, ?_, ?_, rfl⟩
  · show switchLookup (enumCases e.struct) (EnumVal.str l) = some (EnumVal.int v)
    rw [enumCases, switchLookup_append, switchLookup_strCases e.struct l v hl hmem]
  · show switchLookup (enumCases e.struct) (EnumVal.int v) = some (EnumVal.str l)
    rw [enumCases, switchLookup_append, switchLookup_strCases_int e.struct v]
    exact switchLookup_intCases e.struct l v hv hmem
  · exact propLookup_of_mem_nodup e.struct l v hl hmem

/-- C1 witness: the spec's end-to-end enum `Mode = {A: 0, B: 1}`. -/
theorem enum_accessor_roundtrip_witness :
    (generateEnumAccessor ⟨"Mode", [("A", 0), ("B", 1)]⟩).call (EnumVal.str "A") =
        some (EnumVal.int 0) ∧
    (generateEnumAccessor ⟨"Mode", [("A", 0), ("B", 1)]⟩).call (EnumVal.int 0) =
        some (EnumVal.str "A") ∧
    propLookup (generateEnumAccessor ⟨"Mode", [("A", 0), ("B", 1)]⟩).props "A" =
        some 0 ∧
    (generateEnumAccessor ⟨"Mode", [("A", 0), ("B", 1)]⟩).frozen = true :=
  enum_accessor_roundtrip ⟨"Mode", [("A", 0), ("B", 1)]⟩ (by decide) (by decide)
    "A" 0 (by decide)

/-- C2.  For every generated method stub and every argument list: a
callable last argument is popped off the positional list and kept as the
completion callback irrespective of the declared parameter count (a
non-callable or absent last argument leaves the positional list intact
and the callback `null`); the positional arguments actually dispatched
are exactly a prefix of the remaining list, of length at most the
declared parameter count — excess arguments are dropped and missing
trailing arguments are never synthesized. -/
theorem method_stub_call_semantics (m : MethodDef) (p : ProxyState)
    (args : List JsArg) :
    (∀ a, args.getLast? = some a → a.isFunction = true →
        (methodStubCall m p args).2.2 = some a ∧
        (methodStubCall m p args).2.1.params =
          truncateArgs m.paramCount args.dropLast) ∧
    (∀ a, args.getLast? = some a → a.isFunction = false →
        (methodStubCall m p args).2.2 = none ∧
        (methodStubCall m p args).2.1.params = truncateArgs m.paramCount args) ∧
    (args = [] → (methodStubCall m p args).2.2 = none ∧
        (methodStubCall m p args).2.1.params = []) ∧
    (methodStubCall m p args).2.1.params.length ≤ m.paramCount ∧
    (methodStubCall m p args).2.1.params <+: (extractCallback args).1 := by
  refine ⟨?_, ?_, ?_, ?_, ?_⟩
  · intro a hlast hfn
    simp [methodStubCall, extractCallback, hlast, hfn]
  · intro a hlast hfn
    simp [methodStubCall, extractCallback, hlast, hfn]
  · intro h
    subst h
    simp [methodStubCall, extractCallback, truncateArgs]
  · show (truncateArgs m.paramCount (extractCallback args).1).length ≤ m.paramCount
    rw [truncateArgs]
    split
    · simp [Nat.min_le_left]
    · simp
  · show truncateArgs m.paramCount (extractCallback args).1 <+: (extractCallback args).1
    rw [truncateArgs]
    split
    · exact List.take_prefix _ _
    · exact List.nil_prefix

/-- C2 witness: a two-parameter method called with three positional
arguments plus a trailing callback — the callback is captured, the third
positional argument is dropped, nothing is synthesized. -/
theorem method_stub_call_semantics_witness :
    (methodStubCall ⟨["vray", "start"], 2, false, true⟩
        ⟨Transport.http, [], []⟩
        [JsArg.val 1, JsArg.val 2, JsArg.val 3, JsArg.func 9]).2.2 =
      some (JsArg.func 9) ∧
    (methodStubCall ⟨["vray", "start"], 2, false, true⟩
        ⟨Transport.http, [], []⟩
        [JsArg.val 1, JsArg.val 2, JsArg.val 3, JsArg.func 9]).2.1.params =
      truncateArgs 2 [JsArg.val 1, JsArg.val 2, JsArg.val 3] :=
  (method_stub_call_semantics ⟨["vray", "start"], 2, false, true⟩
      ⟨Transport.http, [], []⟩
      [JsArg.val 1, JsArg.val 2, JsArg.val 3, JsArg.func 9]).1
    (JsArg.func 9) (by decide) (by decide)

/-! ## Namespace stub ordering -/

/-- Lists built only by appending an element whose parent path (when it
has one) is already present — the shape in which `stubNamespace` grows
its output. -/
inductive ParentClosed : List NsPath → Prop where
  | nil : ParentClosed []
  | snoc (l : List NsPath) (p : NsPath) (hl : ParentClosed l)
      (hp : 2 ≤ p.length → p.dropLast ∈ l) : ParentClosed (l ++ [p])

/-- In a parent-closed list, every element of depth greater than one is
preceded by its parent path. -/
lemma ParentClosed.parent_before {l : List NsPath} (h : ParentClosed l) :
    ∀ l1 p l2, l = l1 ++ p :: l2 → 2 ≤ p.length → p.dropLast ∈ l1 := by
  induction h with
  | nil =>
      intro l1 p l2 heq hlen
      cases l1 <;> simp at heq
  | snoc l q hl hq ih =>
      intro l1 p l2 heq hlen
      rcases List.eq_nil_or_concat l2 with h2 | ⟨l2', b, h2⟩
      · subst h2
        obtain ⟨h3, h4⟩ := List.append_inj' heq (by rfl)
        have h5 : q = p := by simpa using h4
        subst h3
        subst h5
        exact hq hlen
      · subst h2
        rw [List.concat_eq_append, ← List.cons_append, ← List.append_assoc] at heq
        obtain ⟨h3, _⟩ := List.append_inj' heq (by rfl)
        exact ih l1 p l2' h3 hlen

/-- `stubNamespace` keeps the output parent-closed, never removes an
already emitted container, and after the call every non-empty prefix of
the requested path has been emitted. -/
lemma stubNamespace_spec :
    ∀ (n : Nat) (ns : NsPath) (acc : List NsPath), ns.length = n →
      ParentClosed acc →
      ParentClosed (stubNamespace ns acc) ∧
      (∀ x ∈ acc, x ∈ stubNamespace ns acc) ∧
      ∀ k, 1 ≤ k → k ≤ ns.length → ns.take k ∈ stubNamespace ns acc := by
  intro n
  induction n using Nat.strong_induction_on with
  | _ n ih =>
    intro ns acc hn hacc
    rw [stubNamespace]
    by_cases h2 : 2 ≤ ns.length
    · simp only [h2, dif_pos]
      obtain ⟨ihPC, ihGrow, ihPref⟩ :=
        ih (n - 1) (by omega) ns.dropLast acc (by simp [List.length_dropLast]; omega) hacc
      have hparent : ns.dropLast ∈ stubNamespace ns.dropLast acc := by
        have hself := ihPref ns.dropLast.length
          (by simp [List.length_dropLast]; omega) (le_refl _)
        rwa [List.take_length] at hself
      have hpref : ∀ k, 1 ≤ k → k ≤ ns.length - 1 →
          ns.take k ∈ stubNamespace ns.dropLast acc := by
        intro k hk1 hk2
        have hmem := ihPref k hk1 (by simp [List.length_dropLast]; omega)
        have heq2 : ns.dropLast.take k = ns.take k := by
          rw [List.dropLast_eq_take, List.take_take, min_eq_left (by omega)]
        rwa [heq2] at hmem
      by_cases hmem : ns ∈ stubNamespace ns.dropLast acc
      · simp only [hmem, if_pos]
        refine ⟨ihPC, ihGrow, ?_⟩
        intro k hk1 hk2
        rcases Nat.lt_or_ge k ns.length with hlt | hge
        · exact hpref k hk1 (by omega)
        · have hk : k = ns.length := by omega
          subst hk
          simpa [List.take_length] using hmem
      · simp only [hmem, if_neg, not_false_iff]
        refine ⟨ParentClosed.snoc _ _ ihPC (fun _ => hparent), ?_, ?_⟩
        · intro x hx
          exact List.mem_append_left _ (ihGrow x hx)
        · intro k hk1 hk2
          rcases Nat.lt_or_ge k ns.length with hlt | hge
          · exact List.mem_append_left _ (hpref k hk1 (by omega))
          · have hk : k = ns.length := by omega
            subst hk
            simp [List.take_length]
    · simp only [h2, dif_neg, not_false_iff]
      by_cases hmem : ns ∈ acc
      · simp only [hmem, if_pos]
        refine ⟨hacc, fun x hx => hx, ?_⟩
        intro k hk1 hk2
        have hk : k = ns.length := by omega
        subst hk
        simpa [List.take_length] using hmem
      · simp only [hmem, if_neg, not_false_iff]
        refine ⟨ParentClosed.snoc _ _ hacc (fun hc => absurd hc h2), ?_, ?_⟩
        · intro x hx
          exact List.mem_append_left _ hx
        · intro k hk1 hk2
          have hk : k = ns.length := by omega
          subst hk
          simp [List.take_length]

/-- Folding `stubNamespace` over a list of namespaces keeps the output
parent-closed and emits every non-empty prefix of every listed
namespace. -/
lemma foldl_stub_spec :
    ∀ (nss : List NsPath) (acc : List NsPath), ParentClosed acc →
      ParentClosed (nss.foldl (fun a ns => stubNamespace ns a) acc) ∧
      (∀ x ∈ acc, x ∈ nss.foldl (fun a ns => stubNamespace ns a) acc) ∧
      ∀ ns ∈ nss, ∀ k, 1 ≤ k → k ≤ ns.length →
        ns.take k ∈ nss.foldl (fun a ns => stubNamespace ns a) acc := by
  intro nss
  induction nss with
  | nil => exact fun acc hacc => ⟨hacc, fun x hx => hx, by simp⟩
  | cons hd tl ih =>
      intro acc hacc
      obtain ⟨hPC, hGrow, hPref⟩ := stubNamespace_spec hd.length hd acc rfl hacc
      obtain ⟨tPC, tGrow, tPref⟩ := ih (stubNamespace hd acc) hPC
      refine ⟨tPC, ?_, ?_⟩
      · intro x hx
        exact tGrow x (hGrow x hx)
      · intro ns hns k hk1 hk2
        rcases List.mem_cons.mp hns with h | h
        · subst h
          exact tGrow _ (hPref k hk1 hk2)
        · exact tPref ns h k hk1 hk2

/-- The namespace-collection loop never discards an already collected
namespace. -/
lemma collect_grows :
    ∀ (names : List NsPath) (acc : List NsPath) (x : NsPath), x ∈ acc →
      x ∈ names.foldl
        (fun acc name =>
          if name.length ≤ 1 then acc
          else if name.dropLast ∈ acc then acc else acc ++ [name.dropLast]) acc := by
  intro names
  induction names with
  | nil => exact fun acc x hx => hx
  | cons hd tl ih =>
      intro acc x hx
      simp only [List.foldl_cons]
      apply ih
      by_cases h1 : hd.length ≤ 1
      · simpa [h1] using hx
      · by_cases h2 : hd.dropLast ∈ acc
        · simpa [h1, h2] using hx
        · simp only [h1, h2, if_neg, if_false]
          exact List.mem_append_left _ hx

/-- The namespace-collection loop collects the direct namespace of every
dotted method name. -/
lemma collect_complete :
    ∀ (names : List NsPath) (acc : List NsPath) (m : NsPath), m ∈ names →
      2 ≤ m.length →
      m.dropLast ∈ names.foldl
        (fun acc name =>
          if name.length ≤ 1 then acc
          else if name.dropLast ∈ acc then acc else acc ++ [name.dropLast]) acc := by
  intro names
  induction names with
  | nil => intro acc m hm; cases hm
  | cons hd tl ih =>
      intro acc m hm hlen
      rcases List.mem_cons.mp hm with h | h
      · subst h
        simp only [List.foldl_cons]
        apply collect_grows
        have h1 : ¬ m.length ≤ 1 := by omega
        by_cases h2 : m.dropLast ∈ acc
        · simp [h1, h2]
        · simp [h1, h2]
      · simp only [List.foldl_cons]
        exact ih _ m h hlen

/-- C3 (amended).  The compiler emits a container stub for every distinct
namespace path implied by every registered *method* name (obtained by
repeatedly stripping the last dot segment) — registered event names
contribute no namespace stubs — and for every emitted path of depth
`d > 0` its container appears in the emitted text strictly after its
depth-`(d-1)` parent's container. -/
theorem namespace_stub_generation (md : Metadata) :
    (∀ m ∈ md.methods, 2 ≤ m.name.length →
        ∀ k, 1 ≤ k → k < m.name.length → m.name.take k ∈ emittedStubs md) ∧
    (∀ l1 p l2, emittedStubs md = l1 ++ p :: l2 → 2 ≤ p.length →
        p.dropLast ∈ l1) := by
  have hPC : ParentClosed (emittedStubs md) ∧
      ∀ ns ∈ collectNamespaces (md.methods.map MethodDef.name),
        ∀ k, 1 ≤ k → k ≤ ns.length → ns.take k ∈ emittedStubs md := by
    obtain ⟨h1, _, h3⟩ :=
      foldl_stub_spec (collectNamespaces (md.methods.map MethodDef.name)) []
        ParentClosed.nil
    simp only [emittedStubs, generateStubs]
    exact ⟨h1, h3⟩
  constructor
  · intro m hm hlen k hk1 hk2
    have hname : m.name ∈ md.methods.map MethodDef.name :=
      List.mem_map_of_mem _ hm
    have hcol : m.name.dropLast ∈ collectNamespaces (md.methods.map MethodDef.name) :=
      collect_complete _ [] m.name hname hlen
    have htake := hPC.2 m.name.dropLast hcol k hk1
      (by simp [List.length_dropLast]; omega)
    have heq2 : m.name.dropLast.take k = m.name.take k := by
      rw [List.dropLast_eq_take, List.take_take, min_eq_left (by omega)]
    rwa [heq2] at htake
  · exact hPC.1.parent_before

/-- C3 witness: a single method `a.b.c` makes the compiler emit the
container for `a` (and for `a.b`). -/
theorem namespace_stub_generation_witness :
    ["a"] ∈ emittedStubs (Metadata.mk [] [⟨["a", "b", "c"], 0, false, true⟩] []) :=
  (namespace_stub_generation (Metadata.mk [] [⟨["a", "b", "c"], 0, false, true⟩] [])).1
    ⟨["a", "b", "c"], 0, false, true⟩ (by simp) (by decide) 1 (by decide) (by decide)

/-- C3 counterexample to the claim as stated: a snapshot whose only
registered name is the *event* `a.b` — the event implies namespace path
`a`, yet the compiler emits no container stub at all, because the
namespace-collection loop ranges over method names only. -/
theorem namespace_stub_events_ignored :
    ["a", "b"] ∈ (Metadata.mk [] [] [["a", "b"]]).events ∧
    emittedStubs (Metadata.mk [] [] [["a", "b"]]) = [] ∧
    ["a"] ∉ emittedStubs (Metadata.mk [] [] [["a", "b"]]) := by
  refine ⟨by simp, rfl, by simp [emittedStubs, generateStubs, collectNamespaces]⟩

/-- Each function receiver in the output of `rebindProps` is the
`jsBind self` image of a receiver in the input. -/
lemma rebindProps_receivers (self : Nat) :
    ∀ ps : List (String × ProtoVal),
      ∀ r ∈ propsReceivers (rebindProps self ps),
        ∃ b ∈ propsReceivers ps, r = jsBind self b := by
  intro ps
  induction ps using rebindProps.induct self with
  | case1 => simp [rebindProps, propsReceivers]
  | case2 n b rest ih =>
      intro r hr
      simp only [rebindProps, propsReceivers, List.mem_cons] at hr ⊢
      rcases hr with h | h
      · exact ⟨b, Or.inl rfl, h⟩
      · obtain ⟨b', hb', hr'⟩ := ih r h
        exact ⟨b', Or.inr hb', hr'⟩
  | case3 n isNs ps rest ih1 ih2 =>
      intro r hr
      simp only [rebindProps, propsReceivers, List.mem_append] at hr ⊢
      rcases hr with h | h
      · obtain ⟨b', hb', hr'⟩ := ih1 r h
        exact ⟨b', Or.inl hb', hr'⟩
      · obtain ⟨b', hb', hr'⟩ := ih2 r h
        exact ⟨b', Or.inr hb', hr'⟩
  | case4 n rest ih =>
      intro r hr
      simp only [rebindProps, propsReceivers] at hr ⊢
      obtain ⟨b', hb', hr'⟩ := ih r hr
      exact ⟨b', hb', hr'⟩

/-- C4.  After construction, every namespace container (a property
carrying the `_ns` marker, holding — as emitted — only unbound functions
and nested plain objects) has been replaced by its deep rebind, and every
method function reachable through it, however deeply nested, executes
with the top-level proxy instance `self` as its receiver whatever the
call-time `this` is — including `none`, a detached invocation. -/
theorem construct_rebinds_namespace_methods (self : Nat)
    (props : List (String × ProtoVal)) (n : String)
    (ps : List (String × ProtoVal))
    (hmem : (n, ProtoVal.obj true ps) ∈ props)
    (hunbound : ∀ r ∈ propsReceivers ps, r = none) :
    (n, ProtoVal.obj false (rebindProps self ps)) ∈
      constructNamespaces self props ∧
    ∀ r ∈ propsReceivers (rebindProps self ps), ∀ callThis,
      effectiveReceiver r callThis = some self := by
  constructor
  · have hmap := List.mem_map_of_mem
      (f := fun nv : String × ProtoVal =>
        match nv with
        | (n, ProtoVal.obj true ps) => (n, ProtoVal.obj false (rebindProps self ps))
        | other => other) hmem
    simpa [constructNamespaces] using hmap
  · intro r hr callThis
    obtain ⟨b, hb, rfl⟩ := rebindProps_receivers self ps r hr
    have hbnone := hunbound b hb
    subst hbnone
    rfl

/-- C4 witness: a proxy (instance id 7) with one namespace container
`vray` holding the method `start`; after construction the extracted
method is bound to the proxy instance. -/
theorem construct_rebinds_namespace_methods_witness :
    ("vray", ProtoVal.obj false (rebindProps 7 [("start", ProtoVal.fn none)])) ∈
      constructNamespaces 7 [("vray", ProtoVal.obj true [("start", ProtoVal.fn none)])] ∧
    ∀ r ∈ propsReceivers (rebindProps 7 [("start", ProtoVal.fn none)]), ∀ callThis,
      effectiveReceiver r callThis = some 7 :=
  construct_rebinds_namespace_methods 7
    [("vray", ProtoVal.obj true [("start", ProtoVal.fn none)])] "vray"
    [("start", ProtoVal.fn none)] (by simp)
    (by simp [propsReceivers])

/-- The missing-`new` guard is never taken: `!this` is a boolean, and a
boolean is an instance of nothing. -/
lemma ctorGuard_false (v : JsValue) : ctorGuard v = false := rfl

/-- C5.  Adding a listener for an event name with no currently registered
listeners issues exactly one `rpc.on` control call carrying the event
name as its single parameter, forced over the `'ws'` transport whatever
`defaultTransport` currently is; adding a listener when listeners already
exist issues no call; either way the listener is registered. -/
theorem addListener_first_subscribes (p : ProxyState) (type : String) :
    (listenerCount p type = 0 →
        (addListener p type).calls = p.calls ++ [rpcOnCall type]) ∧
    (listenerCount p type ≠ 0 → (addListener p type).calls = p.calls) ∧
    listenerCount (addListener p type) type = listenerCount p type + 1 ∧
    (rpcOnCall type).method = "rpc.on" ∧
    (rpcOnCall type).params = [JsArg.str type] ∧
    (rpcOnCall type).transport = Transport.ws := by
  refine ⟨?_, ?_, ?_, rfl, rfl, rfl⟩
  · intro h
    simp [addListener, h, setListenerCount]
  · intro h
    simp [addListener, h, setListenerCount]
  · by_cases h : listenerCount p type = 0 <;>
      simp [addListener, h, setListenerCount, listenerCount, countLookup]

/-- C5 witness: on a fresh proxy (default transport `'http'`, no
listeners) the first listener for `"testEvent"` issues the subscribe
call; on a proxy that already has one listener, no call is issued. -/
theorem addListener_first_subscribes_witness :
    (addListener ⟨Transport.http, [], []⟩ "testEvent").calls =
      [] ++ [rpcOnCall "testEvent"] ∧
    (addListener ⟨Transport.http, [("testEvent", 1)], []⟩ "testEvent").calls = [] :=
  ⟨(addListener_first_subscribes ⟨Transport.http, [], []⟩ "testEvent").1
      (by decide),
   (addListener_first_subscribes ⟨Transport.http, [("testEvent", 1)], []⟩
      "testEvent").2.1 (by decide)⟩

/-- C6.  `removeAllListeners(name)` always issues exactly one `rpc.off`
control call with the event name as its single parameter over the `'ws'`
transport — in particular also when zero listeners are registered — and
afterwards no listener is registered for the name. -/
theorem removeAllListeners_always_unsubscribes (p : ProxyState) (type : String) :
    (removeAllListeners p type).calls = p.calls ++ [rpcOffCall type] ∧
    listenerCount (removeAllListeners p type) type = 0 ∧
    (rpcOffCall type).method = "rpc.off" ∧
    (rpcOffCall type).params = [JsArg.str type] ∧
    (rpcOffCall type).transport = Transport.ws := by
  refine ⟨rfl, ?_, rfl, rfl, rfl⟩
  simp [removeAllListeners, setListenerCount, listenerCount, countLookup]

/-- C7.  When no emitter is registered for the requested target language
the compiler entry point fails with the unsupported-language error and
produces no output text; when a registered emitter renders successfully,
the entry point returns exactly the rendered source text. -/
theorem getLanguageProxy_language_check :
    (∀ (emitters : List (String × Emitter)) (options : ProxyOptions),
        emitters.lookup options.language = none →
        getLanguageProxy emitters options =
          Except.error GenError.unsupportedLanguage) ∧
    (∀ (emitters : List (String × Emitter)) (options : ProxyOptions)
        (em : Emitter) (s : String),
        emitters.lookup options.language = some em →
        em.render options.metadata
            (match options.localName with
             | some n => if n ≠ "" then n else "Proxy"
             | none => "Proxy") = Except.ok s →
        getLanguageProxy emitters options = Except.ok s) := by
  constructor
  · intro emitters options h
    simp [getLanguageProxy, h]
  · intro emitters options em s h hrender
    simp only [getLanguageProxy, h]
    exact hrender

/-- C7 witness: a registry with only a JavaScript emitter rejects Python
and renders JavaScript (with the default local name `Proxy`). -/
theorem getLanguageProxy_language_check_witness :
    getLanguageProxy [("JavaScript", ⟨fun _ nm => Except.ok nm⟩)]
        ⟨Metadata.mk [] [] [], "Python", none⟩ =
      Except.error GenError.unsupportedLanguage ∧
    getLanguageProxy [("JavaScript", ⟨fun _ nm => Except.ok nm⟩)]
        ⟨Metadata.mk [] [] [], "JavaScript", none⟩ = Except.ok "Proxy" :=
  ⟨getLanguageProxy_language_check.1 [("JavaScript", ⟨fun _ nm => Except.ok nm⟩)]
      ⟨Metadata.mk [] [] [], "Python", none⟩ rfl,
   getLanguageProxy_language_check.2 [("JavaScript", ⟨fun _ nm => Except.ok nm⟩)]
      ⟨Metadata.mk [] [] [], "JavaScript", none⟩ ⟨fun _ nm => Except.ok nm⟩
      "Proxy" rfl rfl⟩

/-- C8.  Constructing the generated proxy with anything but a non-empty
string URL (a missing argument in particular) throws the invalid-URL
error synchronously; a non-empty string URL constructs an instance whose
default outbound transport is `'http'` (with no tunnel calls issued and
no listeners registered). -/
theorem proxy_ctor_url_validation (thisV url : JsValue) :
    (∀ s, s ≠ "" → url = JsValue.str s →
        proxyCtor thisV url =
          CtorResult.constructed ⟨Transport.http, [], []⟩) ∧
    ((∀ s, url = JsValue.str s → s = "") →
        proxyCtor thisV url = CtorResult.threwInvalidUrl) := by
  have hg := ctorGuard_false thisV
  constructor
  · intro s hs hurl
    subst hurl
    simp [proxyCtor, hg, jsTruthy, jsIsString, hs]
  · intro h
    cases url with
    | str s =>
        have hs := h s rfl
        subst hs
        simp [proxyCtor, hg, jsTruthy, jsIsString]
    | num n => simp [proxyCtor, hg, jsTruthy, jsIsString]
    | boolean b => simp [proxyCtor, hg, jsTruthy, jsIsString]
    | undef => simp [proxyCtor, hg, jsTruthy, jsIsString]
    | nullV => simp [proxyCtor, hg, jsTruthy, jsIsString]
    | objV b => simp [proxyCtor, hg, jsTruthy, jsIsString]

/-- C8 witness: a missing URL (`undefined`) throws; the non-empty string
URL `"http://h"` constructs with default transport `'http'`. -/
theorem proxy_ctor_url_validation_witness :
    proxyCtor (JsValue.objV true) JsValue.undef = CtorResult.threwInvalidUrl ∧
    proxyCtor (JsValue.objV true) (JsValue.str "http://h") =
      CtorResult.constructed ⟨Transport.http, [], []⟩ :=
  ⟨(proxy_ctor_url_validation (JsValue.objV true) JsValue.undef).2
      (fun s h => by cases h),
   (proxy_ctor_url_validation (JsValue.objV true) (JsValue.str "http://h")).1
      "http://h" (by decide) rfl⟩

/-- C9 counterexample to the claim as stated: the generated prototype has
no method named `useSocket` — the persistent-transport switcher is named
`useWS`. -/
theorem useSocket_not_exposed : "useSocket" ∉ proxyPrototypeMethodNames := by
  decide

/-- C9 (amended).  The generated proxy exposes `useHTTP()` and `useWS()`;
each switches the default transport used by subsequent method calls (to
the request/response channel and the persistent channel respectively),
touches nothing else in the proxy state, and returns `this` to support
call chaining. -/
theorem transport_switchers (p : ProxyState) :
    "useHTTP" ∈ proxyPrototypeMethodNames ∧
    "useWS" ∈ proxyPrototypeMethodNames ∧
    (useHTTP p).1.defaultTransport = Transport.http ∧
    (useHTTP p).2 = MethodReturn.self ∧
    (useWS p).1.defaultTransport = Transport.ws ∧
    (useWS p).2 = MethodReturn.self ∧
    (useHTTP p).1.listeners = p.listeners ∧ (useHTTP p).1.calls = p.calls ∧
    (useWS p).1.listeners = p.listeners ∧ (useWS p).1.calls = p.calls ∧
    (∀ m args, (methodStubCall m (useHTTP p).1 args).2.1.transport =
        Transport.http) ∧
    (∀ m args, (methodStubCall m (useWS p).1 args).2.1.transport =
        Transport.ws) :=
  ⟨by decide, by decide, rfl, rfl, rfl, rfl, rfl, rfl, rfl, rfl,
   fun _ _ => rfl, fun _ _ => rfl⟩

/-- C10.  The guard `if (!this instanceof Name) return new Name(url)` is
dead code: `!` applies to `this` before `instanceof`, the negation is
always a boolean, a boolean is never an instance, so the condition is
false for every `this` and the fresh-instance fallback is unreachable for
every invocation. -/
theorem missing_new_guard_unreachable (thisV url : JsValue) :
    ctorGuard thisV = false ∧
    proxyCtor thisV url ≠ CtorResult.freshInstance := by
  refine ⟨ctorGuard_false thisV, ?_⟩
  simp only [proxyCtor, ctorGuard_false thisV, if_false, Bool.false_eq_true]
  split <;> simp
